import Mathlib

/-!
Verification development for the klish console client (`bin/clish.cpp`)
and the transport-session functions (`ktp_session_new`, `ktp_session_free`,
`ktp_session_connected`, `ktp_session_get_socket`).

The definitions below are a shallow embedding of the C source: pure data
flow is translated to Lean functions, the mutable locals of `main` become
explicit state records, and the side effects of `main` (signal setup,
pushing input sources, process exit) are reified as values.
-/

namespace Klish

/-! ### Transport session (`ktp_session.c` part of the source) -/

/-- The connection-state enum of a transport session
(`KTP_SESSION_STATE_*`). -/
inductive KtpSessionState
  | notAuthorized
  | authorized
  | disconnected
deriving DecidableEq, Repr

/-- A `ktp_session_t`: the state field plus the socket descriptor held by
the owned `faux_net` object (`faux_net_set_fd(session->net, sock)`). -/
structure KtpSession where
  state : KtpSessionState
  sock : Int
deriving DecidableEq, Repr

/-- The constructor `ktp_session_new(int sock)`: returns `NULL` (here `none`) when
`sock < 0`; otherwise allocates a session, sets its state to
`KTP_SESSION_STATE_NOT_AUTHORIZED` and stores `sock` in a fresh
`faux_net`.  Allocation (`faux_zmalloc`, guarded by `assert`) is taken
to succeed. -/
def ktp_session_new (sock : Int) : Option KtpSession :=
  if sock < 0 then
    none
  else
    some { state := KtpSessionState.notAuthorized, sock := sock }

/-- The resources owned by a live session: the session struct itself, the
`faux_net` object with its internal buffers, and the socket descriptor
held by the `faux_net`. -/
structure SessionAlloc where
  sessionMem : Bool
  netMem : Bool
  socketHeld : Bool
deriving DecidableEq, Repr

/-- The destructor `ktp_session_free(session)`: returns immediately when `session` is
`NULL`; otherwise calls `faux_net_free(session->net)` and
`faux_free(session)`.  Modelled from the spec: `faux_net_free` is outside
this repository, and the spec states that destroy "releases the socket and
internal buffers", so freeing a non-null session releases the net object,
its socket descriptor and the session memory. -/
def ktp_session_free (session : Option KtpSession) (alloc : SessionAlloc) :
    SessionAlloc :=
  match session with
  | none => alloc
  | some _ => { sessionMem := false, netMem := false, socketHeld := false }

/-- The predicate `ktp_session_connected(session)`: `BOOL_FALSE` for a `NULL` session,
`BOOL_FALSE` when the state is `KTP_SESSION_STATE_DISCONNECTED`, and
`BOOL_TRUE` otherwise. -/
def ktp_session_connected (session : Option KtpSession) : Bool :=
  match session with
  | none => false
  | some s =>
    if s.state = KtpSessionState.disconnected then false else true

/-- The accessor `ktp_session_get_socket(session)`: returns the descriptor stored in
the owned `faux_net` (for a `NULL` session the C code returns
`BOOL_FALSE`, i.e. `0`). -/
def ktp_session_get_socket (session : Option KtpSession) : Int :=
  match session with
  | none => 0
  | some s => s.sock

/-! ### Hooks and command-line options (`clish.cpp` `main`) -/

/-- The two script-stage callbacks that can occupy the `script_fn` slot
of `my_hooks`: the real `clish_script_callback` and the dry-run
replacement `clish_dryrun_callback`. -/
inductive ScriptFn
  | clish_script_callback
  | clish_dryrun_callback
deriving DecidableEq, Repr

/-- The `clish_shell_hooks_t` table.  The `init`, `cmd_line` and `fini`
slots are `NULL` and the `access`/`config` slots are fixed callbacks that
`main` never changes; only the `script_fn` slot is ever reassigned, so it
is the one piece of hook state the embedding tracks. -/
structure ShellHooks where
  script_fn : ScriptFn
deriving DecidableEq, Repr

/-- The static initializer of `my_hooks`: the script slot holds
`clish_script_callback`. -/
def my_hooks : ShellHooks :=
  { script_fn := ScriptFn.clish_script_callback }

/-- One option returned by `getopt_long` in `main`'s option loop, after
`getopt` has separated options from the trailing positional arguments. -/
inductive Opt
  | socket (path : String)
  | lockless
  | stopOnError
  | background
  | quiet
  | utf8
  | bit8
  | dryRun
  | xmlPath (p : String)
  | view (p : String)
  | viewid (p : String)
  | helpOpt
  | versionOpt
  | unknown
deriving DecidableEq, Repr

/-- The mutable locals of `main` that the option loop writes, together
with the (global) hook table.  Defaults mirror the initializers in the
source; the `getenv`-derived paths are modelled as absent. -/
structure MainState where
  socket_path : String := "KONFD_SOCKET_PATH"
  lockless : Bool := false
  stop_on_error : Bool := false
  interactive : Bool := true
  quiet : Bool := false
  utf8 : Bool := false
  bit8 : Bool := false
  xml_path : Option String := none
  view : Option String := none
  viewid : Option String := none
  hooks : ShellHooks := my_hooks
deriving DecidableEq, Repr

/-- Outcome of the option loop: `-h` and `-v` call `exit(0)` from inside
the loop, an unrecognized option calls `exit(-1)`, and otherwise the loop
falls through with the accumulated state. -/
inductive ParseOutcome
  | exitOk
  | exitErr
  | parsed (st : MainState)
deriving DecidableEq, Repr

/-- The `while(1) { getopt_long; switch }` loop of `main`, one case per
option character.  `case 'd'` overwrites `my_hooks.script_fn` with
`clish_dryrun_callback`. -/
def parse_loop : List Opt → MainState → ParseOutcome
  | [], st => ParseOutcome.parsed st
  | o :: rest, st =>
    match o with
    | Opt.socket p => parse_loop rest { st with socket_path := p }
    | Opt.lockless => parse_loop rest { st with lockless := true }
    | Opt.stopOnError => parse_loop rest { st with stop_on_error := true }
    | Opt.background => parse_loop rest { st with interactive := false }
    | Opt.quiet => parse_loop rest { st with quiet := true }
    | Opt.utf8 => parse_loop rest { st with utf8 := true }
    | Opt.bit8 => parse_loop rest { st with bit8 := true }
    | Opt.dryRun =>
      parse_loop rest
        { st with hooks := { script_fn := ScriptFn.clish_dryrun_callback } }
    | Opt.xmlPath p => parse_loop rest { st with xml_path := some p }
    | Opt.view p => parse_loop rest { st with view := some p }
    | Opt.viewid p => parse_loop rest { st with viewid := some p }
    | Opt.helpOpt => ParseOutcome.exitOk
    | Opt.versionOpt => ParseOutcome.exitOk
    | Opt.unknown => ParseOutcome.exitErr

/-- Force the `quiet` flag in the state carried by a parse outcome (used
to relate a run with `-q` to the same run without it). -/
def set_quiet : ParseOutcome → ParseOutcome
  | ParseOutcome.parsed st => ParseOutcome.parsed { st with quiet := true }
  | o => o

/-! ### Input-source stack -/

/-- One input source on the shell's stack: a file pushed by
`clish_shell_push_file`, or the duplicated `stdin` stream pushed by
`clish_shell_push_fd`. -/
inductive Source
  | file (path : String)
  | interactiveFd
deriving DecidableEq, Repr

/-- The call `clish_shell_push_file`: pushes a file source on top of the stack
(the head of the list is the top, i.e. the next source consumed). -/
def clish_shell_push_file (stack : List Source) (path : String) :
    List Source :=
  Source.file path :: stack

/-- The call `clish_shell_push_fd`: pushes the interactive stream on top of the
stack. -/
def clish_shell_push_fd (stack : List Source) : List Source :=
  Source.interactiveFd :: stack

/-- The `for (i = argc - 1; i >= optind; i--) clish_shell_push_file(...)`
loop, expressed over the list of trailing arguments `argv` (already
shifted so that `optind = 0`): `i` counts down from `argv.length - 1`
to `0`.  Besides the stack it also records the push trace, i.e. the
paths in the order in which they were pushed. -/
def push_files_loop (argv : List String) (i : Nat) (stack : List Source)
    (trace : List String) : List Source × List String :=
  let stack' := clish_shell_push_file stack (argv.getD i "")
  let trace' := trace ++ [argv.getD i ""]
  match i with
  | 0 => (stack', trace')
  | j + 1 => push_files_loop argv j stack' trace'

/-- The `if (optind < argc) ... else ...` block of `main`: with trailing
file arguments present, push them with the countdown loop; otherwise
push the single interactive source wrapping `stdin`. -/
def setup_sources (files : List String) : List Source :=
  if 0 < files.length then
    (push_files_loop files (files.length - 1) [] []).1
  else
    clish_shell_push_fd []

/-- The order in which `main` pushes the trailing file arguments (empty
when there are none and the interactive source is used instead). -/
def push_order (files : List String) : List String :=
  if 0 < files.length then
    (push_files_loop files (files.length - 1) [] []).2
  else
    []

/-! ### The shape of a whole run of `main` -/

/-- Outcomes of the external calls `main` makes that can fail or return a
result: `clish_shell_new`, `clish_shell_startup` and `clish_shell_loop`
live in libclish, outside this source file, so a run of the embedded
`main` is parameterized by their results. -/
structure ExternalBehavior where
  shellNewOk : Bool
  startupOk : Bool
  loopResult : Bool
deriving DecidableEq, Repr

/-- Which stream `outfd` ends up pointing at: `stdout` by default, or
`/dev/null` when `-q` was given (`outfd = fopen("/dev/null", "w")`,
modelled as succeeding). -/
inductive OutFd
  | stdout
  | devnull
deriving DecidableEq, Repr

/-- How a run of `main` ends.
* `earlyExit c` — `exit(c)` from inside the option loop (`-h`, `-v`, or
  an unrecognized option), before validation and before any shell exists;
* `optionError c` — the `utf8 && bit8` validation failed: an error is
  printed to stderr and `main` returns `c`, before `clish_shell_new`;
* `shellNewFail c` — `clish_shell_new` returned `NULL`; no shell exists;
* `startupFail c` — the shell was created but `clish_shell_startup`
  failed; the shell is deleted and `main` returns `c` before any source
  is pushed;
* `ran ...` — the dispatch loop was reached: it records the hook table in
  force for the whole loop, the `stop_on_error` flag, the source stack at
  loop entry, `outfd`, the loop result, and the value `main` returns. -/
inductive MainRun
  | earlyExit (code : Int)
  | optionError (code : Int)
  | shellNewFail (code : Int)
  | startupFail (code : Int)
  | ran (hooks : ShellHooks) (so_err : Bool) (sources : List Source)
      (outfd : OutFd) (loopResult : Bool) (code : Int)
deriving DecidableEq, Repr

/-- The embedded `main`, from the option loop to the final `return`:
option parsing, the `utf8 && bit8` validation, the `-q` redirection of
`outfd`, shell creation and startup (external results), source pushing,
the dispatch loop (external result) and the exit disposition
`return result ? 0 : -1`. -/
def main_model (opts : List Opt) (files : List String)
    (ext : ExternalBehavior) : MainRun :=
  match parse_loop opts {} with
  | ParseOutcome.exitOk => MainRun.earlyExit 0
  | ParseOutcome.exitErr => MainRun.earlyExit (-1)
  | ParseOutcome.parsed st =>
    if st.utf8 && st.bit8 then
      MainRun.optionError (-1)
    else
      let outfd := if st.quiet then OutFd.devnull else OutFd.stdout
      if !ext.shellNewOk then
        MainRun.shellNewFail (-1)
      else if !ext.startupOk then
        MainRun.startupFail (-1)
      else
        MainRun.ran st.hooks st.stop_on_error (setup_sources files) outfd
          ext.loopResult (if ext.loopResult then 0 else -1)

/-- The process exit status of a run (`exit(c)` or `main`'s `return`). -/
def exit_code : MainRun → Int
  | MainRun.earlyExit c => c
  | MainRun.optionError c => c
  | MainRun.shellNewFail c => c
  | MainRun.startupFail c => c
  | MainRun.ran _ _ _ _ _ c => c

/-- Whether a `clish_shell_t` instance was ever created during the run. -/
def shell_created : MainRun → Bool
  | MainRun.earlyExit _ => false
  | MainRun.optionError _ => false
  | MainRun.shellNewFail _ => false
  | MainRun.startupFail _ => true
  | MainRun.ran _ _ _ _ _ _ => true

/-- Whether the run reached the call to `clish_shell_loop`. -/
def reached_loop : MainRun → Bool
  | MainRun.ran _ _ _ _ _ _ => true
  | _ => false

/-- The input sources opened during the run (sources are pushed only on
the path that reaches the loop). -/
def opened_sources : MainRun → List Source
  | MainRun.ran _ _ srcs _ _ _ => srcs
  | _ => []

/-- The hook table in force during the dispatch loop, when the loop was
reached.  `main` passes `&my_hooks` to `clish_shell_new` once, before the
loop, and never writes the table afterwards, so a single table value
covers the whole loop. -/
def hooks_at_loop : MainRun → Option ShellHooks
  | MainRun.ran hooks _ _ _ _ _ => some hooks
  | _ => none

/-- The diagnostics `main` prints to stderr on each failure path. -/
def stderr_output : MainRun → List String
  | MainRun.optionError _ =>
    ["The -u and -8 options can\x27t be used together."]
  | MainRun.shellNewFail _ => ["Cannot run clish."]
  | MainRun.startupFail _ => ["Cannot startup clish."]
  | _ => []

/-! ### The dispatch loop, modelled from the spec -/

/-- The tri-state outcome of one executed command line (spec §3,
"Command Result"). -/
inductive CmdOutcome
  | success
  | failure
  | fatal
deriving DecidableEq, Repr

/-- One command line of an input source, with the outcome its pipeline
stages produce when it is executed. -/
structure CmdLine where
  text : String
  outcome : CmdOutcome
deriving DecidableEq, Repr

/-- How consumption of one source ends: exhausted normally, abandoned by
`stop_on_error` after a failure, or cut short by a fatal error. -/
inductive SourceEnd
  | ok
  | abandoned
  | fatalEnd
deriving DecidableEq, Repr

/-- Modelled from the spec: `clish_shell_loop` is in libclish, outside
this source file.  Consumption of a single source (spec §4.2): each
consumed line is echoed to `outfd`; on `Failure` with `stop_on_error`
set the source is abandoned; on `Fatal` the source ends fatally;
otherwise consumption continues.  Returns how the source ended and the
echo events `(destination, line)` in order. -/
def run_source (outfd : OutFd) (stop : Bool) :
    List CmdLine → SourceEnd × List (OutFd × String)
  | [] => (SourceEnd.ok, [])
  | c :: rest =>
    match c.outcome with
    | CmdOutcome.success =>
      let r := run_source outfd stop rest
      (r.1, (outfd, c.text) :: r.2)
    | CmdOutcome.failure =>
      if stop then (SourceEnd.abandoned, [(outfd, c.text)])
      else
        let r := run_source outfd stop rest
        (r.1, (outfd, c.text) :: r.2)
    | CmdOutcome.fatal => (SourceEnd.fatalEnd, [(outfd, c.text)])

/-- Modelled from the spec: the dispatch loop over the source stack
(spec §4.2).  Sources are consumed in stack order; a source abandoned
under `stop_on_error` makes the aggregate result a failure but the next
source still runs; a fatal end abandons every remaining source; the
aggregate result is success iff no consumed source ended in
`abandoned`/`fatalEnd`.  Returns the aggregate result and all echo
events in order. -/
def shell_loop (outfd : OutFd) (stop : Bool) :
    List (List CmdLine) → Bool × List (OutFd × String)
  | [] => (true, [])
  | src :: rest =>
    let r := run_source outfd stop src
    match r.1 with
    | SourceEnd.ok =>
      let l := shell_loop outfd stop rest
      (l.1, r.2 ++ l.2)
    | SourceEnd.abandoned =>
      let l := shell_loop outfd stop rest
      (false, r.2 ++ l.2)
    | SourceEnd.fatalEnd => (false, r.2)

/-! ### The ordered effects of `main` and the SIGPIPE disposition -/

/-- Disposition of a signal for the process: the default action or
`SIG_IGN`. -/
inductive SigDisposition
  | dfl
  | ign
deriving DecidableEq, Repr

/-- The observable steps `main` performs, in program order, at the
granularity of one statement/call each. -/
inductive MainStep
  | sigactionIgnoreSigpipe
  | setlocaleStep
  | optionLoopStep
  | validateStep
  | openDevnullStep
  | shellNewStep
  | loadSchemeStep
  | setSocketStep
  | startupStep
  | pushFileStep (path : String)
  | pushFdStep
  | loopStep
  | shellDeleteStep
  | closeOutfdStep
  | returnStep (code : Int)
  | exitStep (code : Int)
deriving DecidableEq, Repr

/-- Effect of one step on the process's SIGPIPE disposition: only the
`sigaction(SIGPIPE, &sigpipe_act /* SIG_IGN */, NULL)` call touches it. -/
def sigpipe_step (d : SigDisposition) (s : MainStep) : SigDisposition :=
  match s with
  | MainStep.sigactionIgnoreSigpipe => SigDisposition.ign
  | _ => d

/-- The SIGPIPE disposition after a sequence of steps has executed,
starting from the default disposition the process inherits. -/
def sigpipe_disposition_after (steps : List MainStep) : SigDisposition :=
  steps.foldl sigpipe_step SigDisposition.dfl

/-- Modelled from the spec (POSIX boundary): a SIGPIPE delivered under
the default disposition terminates the process; under `SIG_IGN` it does
not. -/
def sigpipe_kills (d : SigDisposition) : Bool :=
  match d with
  | SigDisposition.dfl => true
  | SigDisposition.ign => false

/-- The ordered step trace of a run of `main`, mirroring `main_model`:
the SIGPIPE `sigaction` call is the very first step, before the locale
setup, the option loop and everything else. -/
def main_steps (opts : List Opt) (files : List String)
    (ext : ExternalBehavior) : List MainStep :=
  MainStep.sigactionIgnoreSigpipe :: MainStep.setlocaleStep ::
    MainStep.optionLoopStep ::
    (match parse_loop opts {} with
     | ParseOutcome.exitOk => [MainStep.exitStep 0]
     | ParseOutcome.exitErr => [MainStep.exitStep (-1)]
     | ParseOutcome.parsed st =>
       MainStep.validateStep ::
         (if st.utf8 && st.bit8 then [MainStep.returnStep (-1)]
          else
            (if st.quiet then [MainStep.openDevnullStep] else []) ++
            MainStep.shellNewStep ::
            (if !ext.shellNewOk then [MainStep.returnStep (-1)]
             else
               MainStep.loadSchemeStep :: MainStep.setSocketStep ::
               MainStep.startupStep ::
               (if !ext.startupOk then
                  [MainStep.shellDeleteStep, MainStep.returnStep (-1)]
                else
                  (if 0 < files.length then
                     (push_order files).map MainStep.pushFileStep
                   else [MainStep.pushFdStep]) ++
                  MainStep.loopStep :: MainStep.shellDeleteStep ::
                  (if st.quiet then [MainStep.closeOutfdStep] else []) ++
                  [MainStep.returnStep
                    (if ext.loopResult then 0 else -1)]))))

/-! ### Theorems about the transport session -/

/-- Claim C1: creating a transport session with a negative socket
descriptor fails (the constructor returns the null/failure result the
spec names `InvalidHandle`), and with a non-negative descriptor it
returns a session whose initial state is `NotAuthorized`. -/
theorem claim_C1_session_new (sock : Int) :
    (sock < 0 → ktp_session_new sock = none) ∧
    (0 ≤ sock → ∃ s, ktp_session_new sock = some s ∧
      s.state = KtpSessionState.notAuthorized) := by
  constructor
  · intro h
    simp [ktp_session_new, h]
  · intro h
    refine ⟨{ state := KtpSessionState.notAuthorized, sock := sock }, ?_, rfl⟩
    simp [ktp_session_new, not_lt.mpr h]

/-- Witness for C1 at the concrete descriptors `-1` and `3`. -/
theorem claim_C1_session_new_witness :
    ktp_session_new (-1) = none ∧
    ∃ s, ktp_session_new 3 = some s ∧
      s.state = KtpSessionState.notAuthorized :=
  ⟨(claim_C1_session_new (-1)).1 (by norm_num),
   (claim_C1_session_new 3).2 (by norm_num)⟩

/-- Claim C4: for every (non-null) transport session, `isConnected`
returns true if and only if the session state is not `Disconnected`; in
particular it is true in both `NotAuthorized` and `Authorized` and false
in `Disconnected`. -/
theorem claim_C4_connected (s : KtpSession) :
    ktp_session_connected (some s) = true ↔
      s.state ≠ KtpSessionState.disconnected := by
  cases s with
  | mk st sock =>
    cases st <;> simp [ktp_session_connected]

/-- Claim C7: `destroy()` on a null/absent session leaves every resource
exactly as it was (a successful no-op, hence idempotent against null),
and on a non-null session it releases the session memory, the internal
`faux_net` buffers and the socket descriptor. -/
theorem claim_C7_session_free (alloc : SessionAlloc) :
    ktp_session_free none alloc = alloc ∧
    ∀ s : KtpSession,
      (ktp_session_free (some s) alloc).sessionMem = false ∧
      (ktp_session_free (some s) alloc).netMem = false ∧
      (ktp_session_free (some s) alloc).socketHeld = false := by
  refine ⟨rfl, fun s => ⟨rfl, rfl, rfl⟩⟩

/-! ### The file-push loop -/

lemma push_files_loop_spec (argv : List String) :
    ∀ i : Nat, i < argv.length →
      ∀ (stack : List Source) (trace : List String),
        push_files_loop argv i stack trace =
          ((argv.take (i + 1)).map Source.file ++ stack,
            trace ++ (argv.take (i + 1)).reverse) := by
  intro i
  induction i with
  | zero =>
    intro h stack trace
    simp [push_files_loop, clish_shell_push_file, List.take_succ,
      List.getElem?_eq_getElem h, List.getD_eq_getElem argv "" h]
  | succ j ih =>
    intro h stack trace
    have hj : j < argv.length := Nat.lt_of_succ_lt h
    have hstep :
        push_files_loop argv (j + 1) stack trace =
          push_files_loop argv j
            (clish_shell_push_file stack (argv.getD (j + 1) ""))
            (trace ++ [argv.getD (j + 1) ""]) := rfl
    rw [hstep, ih hj]
    have htake : argv.take (j + 1 + 1) = argv.take (j + 1) ++ [argv[j + 1]] := by
      rw [List.take_succ, List.getElem?_eq_getElem h]
      rfl
    rw [htake, List.getD_eq_getElem argv "" h]
    simp only [clish_shell_push_file, List.map_append, List.map_cons,
      List.map_nil, List.reverse_append, List.reverse_cons, List.reverse_nil,
      List.append_assoc, List.nil_append, List.cons_append, List.append_nil,
      Prod.mk.injEq]

lemma setup_sources_of_files (files : List String) (h : 0 < files.length) :
    setup_sources files = files.map Source.file := by
  have hlt : files.length - 1 < files.length := Nat.sub_lt h Nat.one_pos
  rw [setup_sources, if_pos h, push_files_loop_spec files (files.length - 1) hlt [] []]
  rw [Nat.sub_add_cancel h, List.take_length]
  simp

lemma push_order_of_files (files : List String) (h : 0 < files.length) :
    push_order files = files.reverse := by
  have hlt : files.length - 1 < files.length := Nat.sub_lt h Nat.one_pos
  rw [push_order, if_pos h, push_files_loop_spec files (files.length - 1) hlt [] []]
  rw [Nat.sub_add_cancel h, List.take_length]
  simp

/-- Claim C2: the trailing file arguments `[A1, ..., An]` are pushed in
reverse argument order (`An` first, `A1` last), so the resulting stack —
head is the top, i.e. the next source popped — holds them in the
original left-to-right order `A1, ..., An`: popping consumes them in
order of appearance. -/
theorem claim_C2_file_ordering (files : List String) (h : 0 < files.length) :
    push_order files = files.reverse ∧
    setup_sources files = files.map Source.file :=
  ⟨push_order_of_files files h, setup_sources_of_files files h⟩

/-- Witness for C2 at the concrete argument list `["A", "B", "C"]`:
pushed as `C, B, A`, consumed as `A, B, C`. -/
theorem claim_C2_file_ordering_witness :
    push_order ["A", "B", "C"] = ["C", "B", "A"] ∧
    setup_sources ["A", "B", "C"] =
      [Source.file "A", Source.file "B", Source.file "C"] := by
  have h := claim_C2_file_ordering ["A", "B", "C"] (by decide)
  exact ⟨h.1.trans rfl, h.2.trans rfl⟩

/-- Claim C5: with at least one trailing file argument, every source on
the stack is a file source and the interactive source is never created;
with no file arguments, the stack is exactly the single interactive
source wrapping `stdin`. -/
theorem claim_C5_source_exclusivity (files : List String) :
    (0 < files.length →
      (∀ s ∈ setup_sources files, ∃ p, s = Source.file p) ∧
      Source.interactiveFd ∉ setup_sources files) ∧
    (files.length = 0 → setup_sources files = [Source.interactiveFd]) := by
  constructor
  · intro h
    rw [setup_sources_of_files files h]
    constructor
    · intro s hs
      rcases List.mem_map.mp hs with ⟨p, _, rfl⟩
      exact ⟨p, rfl⟩
    · intro hmem
      rcases List.mem_map.mp hmem with ⟨p, _, hp⟩
      exact Source.noConfusion hp
  · intro h
    rw [setup_sources, if_neg (by omega)]
    rfl

/-- Witness for C5 with one file (`["f"]`, no interactive source) and
with no files (exactly the interactive source). -/
theorem claim_C5_source_exclusivity_witness :
    ((∀ s ∈ setup_sources ["f"], ∃ p, s = Source.file p) ∧
      Source.interactiveFd ∉ setup_sources ["f"]) ∧
    setup_sources [] = [Source.interactiveFd] :=
  ⟨(claim_C5_source_exclusivity ["f"]).1 (by decide),
   (claim_C5_source_exclusivity []).2 rfl⟩

/-! ### Runs that reach the dispatch loop -/

lemma main_model_of_reached (opts : List Opt) (files : List String)
    (ext : ExternalBehavior)
    (h : reached_loop (main_model opts files ext) = true) :
    ∃ st, parse_loop opts {} = ParseOutcome.parsed st ∧
      main_model opts files ext =
        MainRun.ran st.hooks st.stop_on_error (setup_sources files)
          (if st.quiet then OutFd.devnull else OutFd.stdout)
          ext.loopResult (if ext.loopResult then 0 else -1) := by
  unfold main_model at h ⊢
  cases hp : parse_loop opts {} with
  | exitOk => rw [hp] at h; exact absurd h (by simp [reached_loop])
  | exitErr => rw [hp] at h; exact absurd h (by simp [reached_loop])
  | parsed st =>
    refine ⟨st, rfl, ?_⟩
    by_cases hb : (st.utf8 && st.bit8) = true
    · simp [reached_loop, hp, hb] at h
    · cases hsn : ext.shellNewOk with
      | false => simp [reached_loop, hp, hb, hsn] at h
      | true =>
        cases hso : ext.startupOk with
        | false => simp [reached_loop, hp, hb, hsn, hso] at h
        | true => simp [hb, hsn, hso]

/-- Claim C3: for every run that reaches the dispatch loop, the process
exit status is `0` iff the aggregate loop result is success
(`BOOL_TRUE`), and a non-zero status (`-1`) otherwise — the `return
result ? 0 : -1` at the end of `main`. -/
theorem claim_C3_exit_disposition (opts : List Opt) (files : List String)
    (ext : ExternalBehavior)
    (h : reached_loop (main_model opts files ext) = true) :
    (exit_code (main_model opts files ext) = 0 ↔ ext.loopResult = true) ∧
    (ext.loopResult = false → exit_code (main_model opts files ext) = -1) := by
  obtain ⟨st, _, hm⟩ := main_model_of_reached opts files ext h
  rw [hm]
  cases hl : ext.loopResult <;> simp [exit_code]

/-- Witness for C3 on a run with no options, no files and a successful
loop, and one with a failing loop. -/
theorem claim_C3_exit_disposition_witness :
    (exit_code (main_model [] [] ⟨true, true, true⟩) = 0 ↔ True) ∧
    exit_code (main_model [] [] ⟨true, true, false⟩) = -1 := by
  have h1 := claim_C3_exit_disposition [] [] ⟨true, true, true⟩ rfl
  have h2 := claim_C3_exit_disposition [] [] ⟨true, true, false⟩ rfl
  exact ⟨by simpa using h1.1, h2.2 rfl⟩

/-! ### The script-hook slot -/

lemma parse_loop_hooks (opts : List Opt) :
    ∀ st st' : MainState, parse_loop opts st = ParseOutcome.parsed st' →
      st'.hooks =
        if Opt.dryRun ∈ opts then
          { script_fn := ScriptFn.clish_dryrun_callback }
        else st.hooks := by
  induction opts with
  | nil =>
    intro st st' h
    cases h
    simp
  | cons o rest ih =>
    intro st st' h
    cases o with
    | socket p => rw [ih _ _ h]; simp
    | lockless => rw [ih _ _ h]; simp
    | stopOnError => rw [ih _ _ h]; simp
    | background => rw [ih _ _ h]; simp
    | quiet => rw [ih _ _ h]; simp
    | utf8 => rw [ih _ _ h]; simp
    | bit8 => rw [ih _ _ h]; simp
    | dryRun =>
      rw [ih _ _ h]
      by_cases hm : Opt.dryRun ∈ rest <;> simp [hm]
    | xmlPath p => rw [ih _ _ h]; simp
    | view p => rw [ih _ _ h]; simp
    | viewid p => rw [ih _ _ h]; simp
    | helpOpt => exact ParseOutcome.noConfusion h
    | versionOpt => exact ParseOutcome.noConfusion h
    | unknown => exact ParseOutcome.noConfusion h

/-- Claim C6: on every run that reaches the dispatch loop, the single
hook table in force for the whole loop carries exactly one script slot:
`clish_dryrun_callback` when `-d` was given (the replacement happens in
the option loop, before the dispatch loop starts) and
`clish_script_callback` otherwise.  `main` passes the table to
`clish_shell_new` once and never writes it after option parsing, so the
slot cannot change mid-run. -/
theorem claim_C6_dryrun_hook (opts : List Opt) (files : List String)
    (ext : ExternalBehavior)
    (h : reached_loop (main_model opts files ext) = true) :
    hooks_at_loop (main_model opts files ext) =
      some (if Opt.dryRun ∈ opts then
        { script_fn := ScriptFn.clish_dryrun_callback }
      else my_hooks) := by
  obtain ⟨st, hp, hm⟩ := main_model_of_reached opts files ext h
  rw [hm]
  simp only [hooks_at_loop]
  rw [parse_loop_hooks opts {} st hp]

/-- Witness for C6: with `-d` the loop runs under the dry-run callback;
without it, under the ordinary script callback. -/
theorem claim_C6_dryrun_hook_witness :
    hooks_at_loop (main_model [Opt.dryRun] [] ⟨true, true, true⟩) =
      some { script_fn := ScriptFn.clish_dryrun_callback } ∧
    hooks_at_loop (main_model [] [] ⟨true, true, true⟩) =
      some { script_fn := ScriptFn.clish_script_callback } := by
  have h1 := claim_C6_dryrun_hook [Opt.dryRun] [] ⟨true, true, true⟩ rfl
  have h2 := claim_C6_dryrun_hook [] [] ⟨true, true, true⟩ rfl
  constructor
  · rw [h1]; simp
  · rw [h2]; simp [my_hooks]

/-! ### SIGPIPE suppression -/

lemma foldl_sigpipe_ign (l : List MainStep) :
    l.foldl sigpipe_step SigDisposition.ign = SigDisposition.ign := by
  induction l with
  | nil => rfl
  | cons s rest ih =>
    have hs : sigpipe_step SigDisposition.ign s = SigDisposition.ign := by
      cases s <;> rfl
    rw [List.foldl_cons, hs]
    exact ih

/-- Claim C8: on every run, the very first step of `main` installs
`SIG_IGN` for SIGPIPE, and after every nonempty prefix of the run's step
trace the process-wide SIGPIPE disposition is still `SIG_IGN` — no later
step ever changes it — so a broken-pipe condition delivered at any point
of the run does not terminate the process. -/
theorem claim_C8_sigpipe_ignored (opts : List Opt) (files : List String)
    (ext : ExternalBehavior) (k : Nat) (h : 0 < k) :
    sigpipe_disposition_after ((main_steps opts files ext).take k) =
      SigDisposition.ign ∧
    sigpipe_kills
      (sigpipe_disposition_after ((main_steps opts files ext).take k)) =
      false := by
  obtain ⟨j, rfl⟩ : ∃ j, k = j + 1 :=
    ⟨k - 1, (Nat.succ_pred_eq_of_pos h).symm⟩
  have h1 : sigpipe_disposition_after ((main_steps opts files ext).take (j + 1)) =
      SigDisposition.ign := by
    rw [main_steps, List.take_succ_cons]
    unfold sigpipe_disposition_after
    rw [List.foldl_cons]
    exact foldl_sigpipe_ign _
  exact ⟨h1, by rw [h1]; rfl⟩

/-- Witness for C8: after the first step of a plain run the SIGPIPE
disposition is `SIG_IGN` and a broken pipe is not fatal. -/
theorem claim_C8_sigpipe_ignored_witness :
    sigpipe_disposition_after ((main_steps [] [] ⟨true, true, true⟩).take 1) =
      SigDisposition.ign ∧
    sigpipe_kills
      (sigpipe_disposition_after
        ((main_steps [] [] ⟨true, true, true⟩).take 1)) = false :=
  claim_C8_sigpipe_ignored [] [] ⟨true, true, true⟩ 1 (by decide)

/-! ### Quiet mode -/

lemma parse_loop_quiet (opts : List Opt) :
    ∀ st : MainState,
      parse_loop opts { st with quiet := true } =
        set_quiet (parse_loop opts st) := by
  induction opts with
  | nil => intro st; rfl
  | cons o rest ih =>
    intro st
    cases o with
    | socket p => simp only [parse_loop]; exact ih { st with socket_path := p }
    | lockless => simp only [parse_loop]; exact ih { st with lockless := true }
    | stopOnError =>
      simp only [parse_loop]; exact ih { st with stop_on_error := true }
    | background =>
      simp only [parse_loop]; exact ih { st with interactive := false }
    | quiet => simp only [parse_loop]; exact ih { st with quiet := true }
    | utf8 => simp only [parse_loop]; exact ih { st with utf8 := true }
    | bit8 => simp only [parse_loop]; exact ih { st with bit8 := true }
    | dryRun =>
      simp only [parse_loop]
      exact ih
        { st with hooks := { script_fn := ScriptFn.clish_dryrun_callback } }
    | xmlPath p => simp only [parse_loop]; exact ih { st with xml_path := some p }
    | view p => simp only [parse_loop]; exact ih { st with view := some p }
    | viewid p => simp only [parse_loop]; exact ih { st with viewid := some p }
    | helpOpt => rfl
    | versionOpt => rfl
    | unknown => rfl

lemma main_model_quiet (opts : List Opt) (files : List String)
    (ext : ExternalBehavior) :
    main_model (Opt.quiet :: opts) files ext = main_model opts files ext ∨
    ∃ hooks so srcs lr c fd,
      main_model (Opt.quiet :: opts) files ext =
        MainRun.ran hooks so srcs OutFd.devnull lr c ∧
      main_model opts files ext = MainRun.ran hooks so srcs fd lr c := by
  have hq : parse_loop (Opt.quiet :: opts) ({} : MainState) =
      set_quiet (parse_loop opts {}) := parse_loop_quiet opts {}
  unfold main_model
  rw [hq]
  cases hp : parse_loop opts ({} : MainState) with
  | exitOk => left; rfl
  | exitErr => left; rfl
  | parsed st =>
    cases hu : st.utf8 <;> cases h8 : st.bit8 <;>
      cases hsn : ext.shellNewOk <;> cases hso : ext.startupOk <;>
      first
      | (left; simp [set_quiet, hu, h8, hsn, hso]; done)
      | (right;
         exact ⟨st.hooks, st.stop_on_error, setup_sources files,
           ext.loopResult, if ext.loopResult then 0 else -1,
           if st.quiet then OutFd.devnull else OutFd.stdout,
           by simp [set_quiet, hu, h8, hsn, hso],
           by simp [hu, h8, hsn, hso]⟩)

lemma run_source_result_outfd (stop : Bool) (cmds : List CmdLine)
    (f1 f2 : OutFd) :
    (run_source f1 stop cmds).1 = (run_source f2 stop cmds).1 ∧
    (run_source f1 stop cmds).2.map Prod.snd =
      (run_source f2 stop cmds).2.map Prod.snd := by
  induction cmds with
  | nil => exact ⟨rfl, rfl⟩
  | cons c rest ih =>
    cases hc : c.outcome with
    | success =>
      simp only [run_source, hc, List.map_cons]
      exact ⟨ih.1, by rw [ih.2]⟩
    | failure =>
      cases stop with
      | true => simp [run_source, hc]
      | false =>
        simp only [run_source, hc, Bool.false_eq_true, if_false,
          List.map_cons]
        exact ⟨ih.1, by rw [ih.2]⟩
    | fatal => simp [run_source, hc]

lemma shell_loop_result_outfd (stop : Bool) (srcs : List (List CmdLine))
    (f1 f2 : OutFd) :
    (shell_loop f1 stop srcs).1 = (shell_loop f2 stop srcs).1 ∧
    (shell_loop f1 stop srcs).2.map Prod.snd =
      (shell_loop f2 stop srcs).2.map Prod.snd := by
  induction srcs with
  | nil => exact ⟨rfl, rfl⟩
  | cons src rest ih =>
    obtain ⟨h1, h2⟩ := run_source_result_outfd stop src f1 f2
    cases he : (run_source f2 stop src).1 with
    | ok =>
      have he1 : (run_source f1 stop src).1 = SourceEnd.ok := h1.trans he
      simp only [shell_loop, he, he1, List.map_append]
      exact ⟨ih.1, by rw [h2, ih.2]⟩
    | abandoned =>
      have he1 : (run_source f1 stop src).1 = SourceEnd.abandoned :=
        h1.trans he
      simp only [shell_loop, he, he1, List.map_append]
      exact ⟨by simp, by rw [h2, ih.2]⟩
    | fatalEnd =>
      have he1 : (run_source f1 stop src).1 = SourceEnd.fatalEnd :=
        h1.trans he
      simp only [shell_loop, he, he1]
      exact ⟨by simp, h2⟩

/-- Claim C9: quiet mode does not interfere with control flow or
results.  Adding `-q` to any run leaves the exit status, whether the
dispatch loop is reached, the opened sources and the hook table
unchanged (only `outfd` switches from `stdout` to `/dev/null`); and in
the dispatch loop itself, the aggregate result and the sequence of
consumed/echoed lines are the same for both destinations — only the
destination of the echo differs. -/
theorem claim_C9_quiet_noninterference (opts : List Opt)
    (files : List String) (ext : ExternalBehavior) (stop : Bool)
    (srcs : List (List CmdLine)) :
    (exit_code (main_model (Opt.quiet :: opts) files ext) =
        exit_code (main_model opts files ext) ∧
      reached_loop (main_model (Opt.quiet :: opts) files ext) =
        reached_loop (main_model opts files ext) ∧
      opened_sources (main_model (Opt.quiet :: opts) files ext) =
        opened_sources (main_model opts files ext) ∧
      hooks_at_loop (main_model (Opt.quiet :: opts) files ext) =
        hooks_at_loop (main_model opts files ext)) ∧
    ((shell_loop OutFd.devnull stop srcs).1 =
        (shell_loop OutFd.stdout stop srcs).1 ∧
      (shell_loop OutFd.devnull stop srcs).2.map Prod.snd =
        (shell_loop OutFd.stdout stop srcs).2.map Prod.snd) := by
  constructor
  · rcases main_model_quiet opts files ext with h | ⟨hooks, so, s2, lr, c, fd, h1, h2⟩
    · rw [h]; exact ⟨rfl, rfl, rfl, rfl⟩
    · rw [h1, h2]; exact ⟨rfl, rfl, rfl, rfl⟩
  · exact shell_loop_result_outfd stop srcs _ _

/-! ### Encoding-flag exclusivity -/

lemma mem_cons_of_ne {x o : Opt} {rest : List Opt} (h : x ∈ o :: rest)
    (hne : x ≠ o) : x ∈ rest := by
  rcases List.mem_cons.mp h with h | h
  · exact absurd h hne
  · exact h

lemma parse_loop_flags (opts : List Opt) :
    ∀ st : MainState, Opt.helpOpt ∉ opts → Opt.versionOpt ∉ opts →
      Opt.unknown ∉ opts →
      ∃ st', parse_loop opts st = ParseOutcome.parsed st' ∧
        ((Opt.utf8 ∈ opts ∨ st.utf8 = true) → st'.utf8 = true) ∧
        ((Opt.bit8 ∈ opts ∨ st.bit8 = true) → st'.bit8 = true) := by
  induction opts with
  | nil =>
    intro st _ _ _
    exact ⟨st, rfl, fun h => h.resolve_left (by simp),
      fun h => h.resolve_left (by simp)⟩
  | cons o rest ih =>
    intro st hh hv hx
    have hh' : Opt.helpOpt ∉ rest := fun hm => hh (List.mem_cons_of_mem _ hm)
    have hv' : Opt.versionOpt ∉ rest := fun hm => hv (List.mem_cons_of_mem _ hm)
    have hx' : Opt.unknown ∉ rest := fun hm => hx (List.mem_cons_of_mem _ hm)
    cases o with
    | helpOpt => exact absurd (List.mem_cons_self _ _) hh
    | versionOpt => exact absurd (List.mem_cons_self _ _) hv
    | unknown => exact absurd (List.mem_cons_self _ _) hx
    | utf8 =>
      obtain ⟨st', hps, hu8, hb8⟩ := ih { st with utf8 := true } hh' hv' hx'
      exact ⟨st', hps, fun _ => hu8 (Or.inr rfl),
        fun h => hb8 (h.imp (fun hm => mem_cons_of_ne hm (by simp))
          fun hf => hf)⟩
    | bit8 =>
      obtain ⟨st', hps, hu8, hb8⟩ := ih { st with bit8 := true } hh' hv' hx'
      exact ⟨st', hps,
        fun h => hu8 (h.imp (fun hm => mem_cons_of_ne hm (by simp))
          fun hf => hf),
        fun _ => hb8 (Or.inr rfl)⟩
    | socket p =>
      obtain ⟨st', hps, hu8, hb8⟩ := ih { st with socket_path := p } hh' hv' hx'
      exact ⟨st', hps,
        fun h => hu8 (h.imp (fun hm => mem_cons_of_ne hm (by simp))
          fun hf => hf),
        fun h => hb8 (h.imp (fun hm => mem_cons_of_ne hm (by simp))
          fun hf => hf)⟩
    | lockless =>
      obtain ⟨st', hps, hu8, hb8⟩ := ih { st with lockless := true } hh' hv' hx'
      exact ⟨st', hps,
        fun h => hu8 (h.imp (fun hm => mem_cons_of_ne hm (by simp))
          fun hf => hf),
        fun h => hb8 (h.imp (fun hm => mem_cons_of_ne hm (by simp))
          fun hf => hf)⟩
    | stopOnError =>
      obtain ⟨st', hps, hu8, hb8⟩ :=
        ih { st with stop_on_error := true } hh' hv' hx'
      exact ⟨st', hps,
        fun h => hu8 (h.imp (fun hm => mem_cons_of_ne hm (by simp))
          fun hf => hf),
        fun h => hb8 (h.imp (fun hm => mem_cons_of_ne hm (by simp))
          fun hf => hf)⟩
    | background =>
      obtain ⟨st', hps, hu8, hb8⟩ :=
        ih { st with interactive := false } hh' hv' hx'
      exact ⟨st', hps,
        fun h => hu8 (h.imp (fun hm => mem_cons_of_ne hm (by simp))
          fun hf => hf),
        fun h => hb8 (h.imp (fun hm => mem_cons_of_ne hm (by simp))
          fun hf => hf)⟩
    | quiet =>
      obtain ⟨st', hps, hu8, hb8⟩ := ih { st with quiet := true } hh' hv' hx'
      exact ⟨st', hps,
        fun h => hu8 (h.imp (fun hm => mem_cons_of_ne hm (by simp))
          fun hf => hf),
        fun h => hb8 (h.imp (fun hm => mem_cons_of_ne hm (by simp))
          fun hf => hf)⟩
    | dryRun =>
      obtain ⟨st', hps, hu8, hb8⟩ :=
        ih { st with
          hooks := { script_fn := ScriptFn.clish_dryrun_callback } } hh' hv' hx'
      exact ⟨st', hps,
        fun h => hu8 (h.imp (fun hm => mem_cons_of_ne hm (by simp))
          fun hf => hf),
        fun h => hb8 (h.imp (fun hm => mem_cons_of_ne hm (by simp))
          fun hf => hf)⟩
    | xmlPath p =>
      obtain ⟨st', hps, hu8, hb8⟩ := ih { st with xml_path := some p } hh' hv' hx'
      exact ⟨st', hps,
        fun h => hu8 (h.imp (fun hm => mem_cons_of_ne hm (by simp))
          fun hf => hf),
        fun h => hb8 (h.imp (fun hm => mem_cons_of_ne hm (by simp))
          fun hf => hf)⟩
    | view p =>
      obtain ⟨st', hps, hu8, hb8⟩ := ih { st with view := some p } hh' hv' hx'
      exact ⟨st', hps,
        fun h => hu8 (h.imp (fun hm => mem_cons_of_ne hm (by simp))
          fun hf => hf),
        fun h => hb8 (h.imp (fun hm => mem_cons_of_ne hm (by simp))
          fun hf => hf)⟩
    | viewid p =>
      obtain ⟨st', hps, hu8, hb8⟩ := ih { st with viewid := some p } hh' hv' hx'
      exact ⟨st', hps,
        fun h => hu8 (h.imp (fun hm => mem_cons_of_ne hm (by simp))
          fun hf => hf),
        fun h => hb8 (h.imp (fun hm => mem_cons_of_ne hm (by simp))
          fun hf => hf)⟩

/-- Counterexample to claim C10 as stated: in the run with options
`-u -8 -h`, both encoding flags are supplied, yet the program prints the
help text and exits with status `0` — the `-h` case of the option loop
calls `exit(0)` before the `utf8 && bit8` validation is ever reached, so
the run does not report the exclusivity error and does not exit with a
non-zero status. -/
theorem claim_C10_counterexample :
    Opt.utf8 ∈ [Opt.utf8, Opt.bit8, Opt.helpOpt] ∧
    Opt.bit8 ∈ [Opt.utf8, Opt.bit8, Opt.helpOpt] ∧
    main_model [Opt.utf8, Opt.bit8, Opt.helpOpt] [] ⟨true, true, true⟩ =
      MainRun.earlyExit 0 ∧
    exit_code (main_model [Opt.utf8, Opt.bit8, Opt.helpOpt] []
      ⟨true, true, true⟩) = 0 :=
  ⟨by simp, by simp, rfl, rfl⟩

/-- Claim C10 (amended): for every run in which both `-u` and `-8` are
supplied and the option loop completes (no `-h`, `-v` or unrecognized
option causes an early `exit`), option validation fails: the run ends in
the validation-error path with the exclusivity diagnostic on stderr and
a non-zero exit status, before any shell instance is created and before
any input source is opened. -/
theorem claim_C10_encoding_exclusivity (opts : List Opt)
    (files : List String) (ext : ExternalBehavior)
    (hu : Opt.utf8 ∈ opts) (hb : Opt.bit8 ∈ opts)
    (hh : Opt.helpOpt ∉ opts) (hv : Opt.versionOpt ∉ opts)
    (hx : Opt.unknown ∉ opts) :
    main_model opts files ext = MainRun.optionError (-1) ∧
    exit_code (main_model opts files ext) ≠ 0 ∧
    shell_created (main_model opts files ext) = false ∧
    opened_sources (main_model opts files ext) = [] ∧
    stderr_output (main_model opts files ext) =
      ["The -u and -8 options can\x27t be used together."] := by
  obtain ⟨st, hps, hu8, hb8⟩ := parse_loop_flags opts {} hh hv hx
  have h1 : st.utf8 = true := hu8 (Or.inl hu)
  have h2 : st.bit8 = true := hb8 (Or.inl hb)
  have hm : main_model opts files ext = MainRun.optionError (-1) := by
    unfold main_model
    rw [hps]
    simp [h1, h2]
  refine ⟨hm, ?_, ?_, ?_, ?_⟩
  · rw [hm]; decide
  · rw [hm]; rfl
  · rw [hm]; rfl
  · rw [hm]; rfl

/-- Witness for (amended) C10 at the concrete option list `[-u, -8]`. -/
theorem claim_C10_encoding_exclusivity_witness :
    main_model [Opt.utf8, Opt.bit8] [] ⟨true, true, true⟩ =
      MainRun.optionError (-1) ∧
    exit_code (main_model [Opt.utf8, Opt.bit8] [] ⟨true, true, true⟩) ≠ 0 ∧
    shell_created (main_model [Opt.utf8, Opt.bit8] [] ⟨true, true, true⟩) =
      false ∧
    opened_sources (main_model [Opt.utf8, Opt.bit8] [] ⟨true, true, true⟩) =
      [] ∧
    stderr_output (main_model [Opt.utf8, Opt.bit8] [] ⟨true, true, true⟩) =
      ["The -u and -8 options can\x27t be used together."] :=
  claim_C10_encoding_exclusivity [Opt.utf8, Opt.bit8] [] ⟨true, true, true⟩
    (by simp) (by simp) (by simp) (by simp) (by simp)

end Klish
